import Mathlib

/-!
Shallow embedding of `src/analyze_strategy.py` (a pandas trade-report
script) and proofs about it.

Modelling conventions:
* A row of `trades.csv` after timestamp conversion is a `TradeRecord`;
  the dataframe is a `List TradeRecord`.
* Numeric columns (`数量` quantity, `价格` price, `金额` cost) and
  timestamps (after `pd.to_datetime`, measured in seconds) are modelled
  as `ℚ`.
* `Series.min()` / `Series.max()` / `Series.mean()` of an empty pandas
  series yield `NaN`/`NaT`; we model those results as `Option ℚ`, with
  `none` standing for `NaN`/`NaT`.
* `df.sort_values(['slug', '时间'])` with two keys uses `np.lexsort`,
  which is a stable sort by the lexicographic key (slug, 时间); we model
  it as `List.insertionSort` by the same total preorder (stable sorts by
  the same preorder agree on all inputs).
-/

/-- One row of the trade table, after `pd.to_datetime` has turned the
`时间` column into comparable time values (modelled in seconds). -/
structure TradeRecord where
  slug : String
  title : String
  time : ℚ
  side : String
  qty : ℚ
  price : ℚ
  cost : ℚ
deriving DecidableEq

/-- The sort key order of `df.sort_values(['slug', '时间'])`:
lexicographic on (slug, time). -/
def keyLE (a b : TradeRecord) : Prop :=
  a.slug < b.slug ∨ (a.slug = b.slug ∧ a.time ≤ b.time)

instance : DecidableRel keyLE := fun a b => by
  unfold keyLE; infer_instance

instance : IsTrans TradeRecord keyLE where
  trans a b c hab hbc := by
    rcases hab with h1 | ⟨e1, t1⟩ <;> rcases hbc with h2 | ⟨e2, t2⟩
    · exact Or.inl (lt_trans h1 h2)
    · exact Or.inl (e2 ▸ h1)
    · exact Or.inl (e1 ▸ h2)
    · exact Or.inr ⟨e1.trans e2, le_trans t1 t2⟩

instance : IsTotal TradeRecord keyLE where
  total a b := by
    rcases lt_trichotomy a.slug b.slug with h | h | h
    · exact Or.inl (Or.inl h)
    · rcases le_total a.time b.time with ht | ht
      · exact Or.inl (Or.inr ⟨h, ht⟩)
      · exact Or.inr (Or.inr ⟨h.symm, ht⟩)
    · exact Or.inr (Or.inl h)

/-- Line 12: `df = df.sort_values(['slug', '时间'])` (stable sort by the
lexicographic key). -/
def sortTrades (l : List TradeRecord) : List TradeRecord :=
  List.insertionSort keyLE l

/-- The distinct group keys, in order, of `df.groupby('slug')` (pandas
iterates groups in sorted key order; on the sorted table this is the
order of the distinct slugs). -/
def groupKeys (l : List TradeRecord) : List String :=
  (l.map (·.slug)).dedup

/-- The rows of one group of `df.groupby('slug')`: the rows whose `slug`
equals the key, in table order. -/
def groupOf (l : List TradeRecord) (s : String) : List TradeRecord :=
  l.filter (fun r => r.slug == s)

/-- Lines 27-28: `group[group['结果'] == s]` — the records of one side. -/
def sideRecords (g : List TradeRecord) (s : String) : List TradeRecord :=
  g.filter (fun r => r.side == s)

/-- Lines 30-31 (and 106-107): `...['数量'].sum()` over one side. -/
def sideQty (g : List TradeRecord) (s : String) : ℚ :=
  ((sideRecords g s).map (·.qty)).sum

/-- Lines 32-33: `...['金额'].sum()` over one side. -/
def sideCost (g : List TradeRecord) (s : String) : ℚ :=
  ((sideRecords g s).map (·.cost)).sum

/-- Lines 36-37: the printed per-side average price
`cost/qty if qty > 0 else 0`. -/
def sideAvgPrice (g : List TradeRecord) (s : String) : ℚ :=
  if 0 < sideQty g s then sideCost g s / sideQty g s else 0

/-- Line 38: the printed combined cost per pair
`(up_cost + down_cost)/(up_qty if up_qty > 0 else 1)`. -/
def combinedCost (g : List TradeRecord) : ℚ :=
  (sideCost g "Up" + sideCost g "Down") /
    (if 0 < sideQty g "Up" then sideQty g "Up" else 1)

/-- Line 39: `abs(up_qty - down_qty)`. -/
def imbalanceQty (g : List TradeRecord) : ℚ :=
  |sideQty g "Up" - sideQty g "Down"|

/-- Minimum of a pandas series (`Series.min()`): `none` models the
`NaN`/`NaT` returned on an empty series. -/
def qmin? : List ℚ → Option ℚ
  | [] => none
  | x :: xs => some ((qmin? xs).elim x (min x))

/-- Maximum of a pandas series (`Series.max()`): `none` models the
`NaN` returned on an empty series. -/
def qmax? : List ℚ → Option ℚ
  | [] => none
  | x :: xs => some ((qmax? xs).elim x (max x))

/-- Lines 43-44: `up_trades['价格'].min()` etc. -/
def priceMin (g : List TradeRecord) (s : String) : Option ℚ :=
  qmin? ((sideRecords g s).map (·.price))

/-- Lines 43-44: `up_trades['价格'].max()` etc. -/
def priceMax (g : List TradeRecord) (s : String) : Option ℚ :=
  qmax? ((sideRecords g s).map (·.price))

/-- What a `{x:.2f}`-style f-string interpolation shows for a statistic:
a number, or the text `nan` when the value is the float `NaN`. -/
inductive Rendered where
  | num (q : ℚ)
  | nan
deriving DecidableEq

/-- Rendering of a possibly-`NaN` statistic (`none` ↦ the text `nan`);
Python's float formatting renders `NaN` as `nan` without raising. -/
def renderOpt : Option ℚ → Rendered
  | some q => .num q
  | none => .nan

/-- Lines 47-49: the head excerpt `group.head(10)`. -/
def headExcerpt (g : List TradeRecord) : List TradeRecord :=
  g.take 10

/-- Lines 51-55: `if len(group) > 20:` print a gap marker for the
`len(group)-20` middle records and the tail excerpt `group.tail(10)`;
`none` when the guard fails (no marker, no tail). -/
def tailGap (g : List TradeRecord) : Option (Nat × List TradeRecord) :=
  if 20 < g.length then some (g.length - 20, g.drop (g.length - 10)) else none

/-- The record lines actually printed for a group: the head excerpt,
then (when present) the tail excerpt. -/
def displayedRecords (g : List TradeRecord) : List TradeRecord :=
  headExcerpt g ++ ((tailGap g).elim [] (·.2))

/-- Lines 61-63: mean price of one side's records among
`group.head(20)`; `none` models the `NaN` mean of an empty selection. -/
def first20SideAvg (g : List TradeRecord) (s : String) : Option ℚ :=
  let ps := (((g.take 20).filter (fun r => r.side == s)).map (·.price))
  if ps.isEmpty then none else some (ps.sum / (ps.length : ℚ))

/-- Line 67: `first_up_avg < 0.35 or first_down_avg < 0.35`; a NaN
(`none`) compares false, so an absent side never triggers the flag. -/
def cheapEntry (g : List TradeRecord) : Bool :=
  ((first20SideAvg g "Up").elim false (fun q => decide (q < 35/100))) ||
    ((first20SideAvg g "Down").elim false (fun q => decide (q < 35/100)))

/-- Lines 71-72: `up_trades['时间'].min()` etc.; `none` models `NaT` on
an empty side. -/
def firstSideTime (g : List TradeRecord) (s : String) : Option ℚ :=
  qmin? ((sideRecords g s).map (·.time))

/-- Line 73: `abs((up_first - down_first).total_seconds())`; `NaT`
arithmetic yields `NaN` (`none`), it does not raise. -/
def hedgeGapSeconds (g : List TradeRecord) : Option ℚ :=
  match firstSideTime g "Up", firstSideTime g "Down" with
  | some u, some d => some |u - d|
  | _, _ => none

/-- Line 79: `time_diff < 60` (a NaN gap compares false). -/
def fastHedge (g : List TradeRecord) : Bool :=
  (hedgeGapSeconds g).elim false (fun d => decide (d < 60))

/-- Line 85: `len(group) > 50`. -/
def sustainedTrading (g : List TradeRecord) : Bool :=
  decide (50 < g.length)

/-- Lines 75-76: `up_first.strftime(...)` / `down_first.strftime(...)`
raise `ValueError` when the value is `NaT`, i.e. exactly when that side
has no records; the rest of the block raises nothing (`NaN` values
merely format as `nan`). So the block completes iff both sides occur. -/
def groupBlockOk (g : List TradeRecord) : Bool :=
  (firstSideTime g "Up").isSome && (firstSideTime g "Down").isSome

/-- Lines 19-88: the per-group loop. For each group in key order, emit
its block; an unhandled exception inside a block (see `groupBlockOk`)
aborts the whole loop, so later groups are never reported. Each entry
records the group key and whether its block was completed. -/
def groupLoop : List (String × List TradeRecord) → List (String × Bool)
  | [] => []
  | (s, g) :: rest =>
    if groupBlockOk g then (s, true) :: groupLoop rest else [(s, false)]

/-- What `up_total/down_total` (line 111) prints: numpy float64
division, where `x/0` is `inf` (`-inf` for negative `x`), `0/0` is
`nan`, and a `RuntimeWarning` — not an exception — is emitted. -/
inductive RatioVal where
  | finite (q : ℚ)
  | inf
  | negInf
  | nan
deriving DecidableEq

/-- Lines 106-111: the global up/down quantity ratio as rendered. -/
def upDownRatio (l : List TradeRecord) : RatioVal :=
  let u := sideQty l "Up"
  let d := sideQty l "Down"
  if d = 0 then
    if 0 < u then .inf else if u < 0 then .negInf else .nan
  else .finite (u / d)

/-- One raw CSV row. `timeVal` is the outcome of parsing the `时间`
cell: `none` when `pd.to_datetime` would fail on it. -/
structure RawRow where
  slug : String
  title : String
  timeVal : Option ℚ
  side : String
  qty : ℚ
  price : ℚ
  cost : ℚ

/-- The input as the program sees it: a missing/unreadable file, or a
table of raw rows. -/
inductive LoadInput where
  | missing
  | table (rows : List RawRow)

/-- Timestamp conversion of one row (line 9). -/
def parseRow (r : RawRow) : Option TradeRecord :=
  r.timeVal.map fun t =>
    { slug := r.slug, title := r.title, time := t, side := r.side,
      qty := r.qty, price := r.price, cost := r.cost }

/-- Row-by-row timestamp conversion of the whole table; `none` as soon
as any row's timestamp fails to parse (`pd.to_datetime` raises on the
whole column). -/
def parseRows : List RawRow → Option (List TradeRecord)
  | [] => some []
  | r :: t =>
    match parseRow r, parseRows t with
    | some rec, some recs => some (rec :: recs)
    | _, _ => none

/-- Lines 6-12: `pd.read_csv` + `pd.to_datetime` + sort. `none` models
the load phase raising (file missing/unreadable, or an unparseable
timestamp), which happens before anything is printed. -/
def load : LoadInput → Option (List TradeRecord)
  | .missing => none
  | .table rows => (parseRows rows).map sortTrades

/-- The observable output of a successful load: the group blocks that
were (at least partially) printed, whether the group phase finished
without an unhandled exception, and whether the global summary was
printed (it is reached only if the group phase survived, and on an
empty table line 98 divides by zero group count and raises). -/
structure ProgOutput where
  blocks : List (String × Bool)
  groupPhaseOk : Bool
  globalOk : Bool
deriving DecidableEq

/-- Lines 15-113: everything after a successful load. -/
def runLoaded (recs : List TradeRecord) : ProgOutput :=
  let blocks := groupLoop ((groupKeys recs).map fun s => (s, groupOf recs s))
  let gOk := blocks.all (·.2)
  { blocks := blocks, groupPhaseOk := gOk,
    globalOk := gOk && !recs.isEmpty }

/-- The whole program: load, then report. `none` means the program
aborted during load with nothing printed at all. -/
def run (inp : LoadInput) : Option ProgOutput :=
  (load inp).map runLoaded

/-! ### Concrete fixtures used by witnesses -/

/-- A concrete record with a fixed title. -/
def mkRec (slug : String) (t : ℚ) (side : String) (q p c : ℚ) : TradeRecord :=
  { slug := slug, title := "T", time := t, side := side,
    qty := q, price := p, cost := c }

/-- A one-sided group: a single Down trade, no Up trades. -/
def gDownOnly : List TradeRecord := [mkRec "a" 0 "Down" 2 (1/2) 1]

/-- A one-sided group: a single Up trade, no Down trades. -/
def gUpOnly : List TradeRecord := [mkRec "a" 0 "Up" 3 (1/2) (3/2)]

/-- A hedged group: one cheap Up trade, one Down trade 30 seconds
later. -/
def gBoth : List TradeRecord :=
  [mkRec "a" 0 "Up" 10 (3/10) 3, mkRec "a" 30 "Down" 10 (7/10) 7]

/-- The `n`-th row of a synthetic single-slug Up-only table. -/
def rowN (n : ℕ) : TradeRecord := mkRec "a" (n : ℚ) "Up" 1 1 1

/-- A 15-record group (head excerpt short of the tail guard). -/
def rows15 : List TradeRecord := (List.range 15).map rowN

/-- A 60-record group (Scenario C of the spec). -/
def rows60 : List TradeRecord := (List.range 60).map rowN

/-! ### General helper lemmas -/

lemma sideRecords_nil_of_no_side (g : List TradeRecord) (s : String)
    (h : ∀ r ∈ g, r.side ≠ s) : sideRecords g s = [] := by
  apply List.filter_eq_nil_iff.mpr
  intro r hr
  simpa using h r hr

/-! ### Claim theorems -/

/-- C6: applying the program's sort by (slug, 时间) to a table that is
already sorted by that key leaves the row order unchanged, also in the
presence of rows with equal slug and equal time (the sort is stable). -/
theorem c6_sort_idempotent (l : List TradeRecord) (h : List.Sorted keyLE l) :
    sortTrades l = l :=
  h.insertionSort_eq

/-- Witness for C6 on a concrete already-sorted table containing two
rows with equal slug and equal timestamp. -/
theorem c6_sort_idempotent_witness :
    sortTrades [mkRec "a" 0 "Up" 1 1 1, mkRec "a" 0 "Up" 1 1 1, mkRec "b" 1 "Down" 1 1 1] =
      [mkRec "a" 0 "Up" 1 1 1, mkRec "a" 0 "Up" 1 1 1, mkRec "b" 1 "Down" 1 1 1] :=
  c6_sort_idempotent _ (by
    have hab : ("a" : String) < "b" := String.lt_iff_toList_lt.mpr (by decide)
    refine List.Pairwise.cons ?_ (List.Pairwise.cons ?_ (List.pairwise_singleton _ _))
    · intro b hb
      rcases List.mem_cons.mp hb with rfl | hb
      · exact Or.inr ⟨rfl, le_refl _⟩
      · rcases List.mem_singleton.mp hb with rfl
        exact Or.inl hab
    · intro b hb
      rcases List.mem_singleton.mp hb with rfl
      exact Or.inl hab)

/-- C2: the combined average price is `(up_cost + down_cost)` divided by
`up_quantity` alone, and when `up_quantity` is 0 the denominator used is
1, so no division by zero occurs. -/
theorem c2_combined_avg (g : List TradeRecord) :
    (0 < sideQty g "Up" →
      combinedCost g = (sideCost g "Up" + sideCost g "Down") / sideQty g "Up") ∧
    (sideQty g "Up" = 0 →
      combinedCost g = (sideCost g "Up" + sideCost g "Down") / 1) := by
  constructor
  · intro h
    rw [combinedCost, if_pos h]
  · intro h
    rw [combinedCost, h, if_neg (lt_irrefl 0)]

/-- Witness for C2: both branches on concrete groups — one with a
positive Up quantity, one with no Up trades at all. -/
theorem c2_combined_avg_witness :
    (0 < sideQty gBoth "Up" ∧
      combinedCost gBoth = (sideCost gBoth "Up" + sideCost gBoth "Down") / sideQty gBoth "Up") ∧
    (sideQty gDownOnly "Up" = 0 ∧
      combinedCost gDownOnly = (sideCost gDownOnly "Up" + sideCost gDownOnly "Down") / 1) := by
  have h1 : 0 < sideQty gBoth "Up" := by
    simp [sideQty, sideRecords, gBoth, mkRec, List.filter_cons]
  have h2 : sideQty gDownOnly "Up" = 0 := by
    simp [sideQty, sideRecords, gDownOnly, mkRec, List.filter_cons]
  exact ⟨⟨h1, (c2_combined_avg gBoth).1 h1⟩, ⟨h2, (c2_combined_avg gDownOnly).2 h2⟩⟩

/-- C9: a group with fewer than 10 records prints its whole record list
as the head excerpt (no error, no padding), and a group with at most 20
records gets no tail excerpt and no gap marker — its records beyond the
first 10 are simply not displayed. -/
theorem c9_excerpt_edges (g : List TradeRecord) :
    (g.length < 10 → headExcerpt g = g) ∧
    (g.length ≤ 20 → tailGap g = none ∧ displayedRecords g = g.take 10) := by
  refine ⟨fun h => ?_, fun h => ?_⟩
  · exact List.take_of_length_le (le_of_lt h)
  · have hng : ¬ 20 < g.length := not_lt.mpr h
    refine ⟨if_neg hng, ?_⟩
    simp [displayedRecords, tailGap, if_neg hng, headExcerpt]

/-- Witness for C9: a 2-record group shows both records as the head
excerpt; a 15-record group gets no tail excerpt and displays exactly its
first 10 records. -/
theorem c9_excerpt_edges_witness :
    (gBoth.length < 10 ∧ headExcerpt gBoth = gBoth) ∧
    (rows15.length ≤ 20 ∧ tailGap rows15 = none ∧
      displayedRecords rows15 = rows15.take 10) := by
  have h1 : gBoth.length < 10 := by simp [gBoth]
  have h2 : rows15.length ≤ 20 := by simp [rows15]
  exact ⟨⟨h1, (c9_excerpt_edges gBoth).1 h1⟩, ⟨h2, (c9_excerpt_edges rows15).2 h2⟩⟩

/-- C10: for a group in which one side has zero records, the position
statistics and price-range lines are total: the empty side's quantity
and cost sums are 0, its guarded average price is 0, and its price
min/max render as the text `nan` — no exception at these lines. -/
theorem c10_empty_side_stats (g : List TradeRecord) (s : String)
    (h : sideRecords g s = []) :
    sideQty g s = 0 ∧ sideCost g s = 0 ∧ sideAvgPrice g s = 0 ∧
    renderOpt (priceMin g s) = .nan ∧ renderOpt (priceMax g s) = .nan := by
  have hq : sideQty g s = 0 := by simp [sideQty, h]
  have hc : sideCost g s = 0 := by simp [sideCost, h]
  refine ⟨hq, hc, ?_, ?_, ?_⟩
  · rw [sideAvgPrice, hq, if_neg (lt_irrefl 0)]
  · simp [priceMin, h, qmin?, renderOpt]
  · simp [priceMax, h, qmax?, renderOpt]

/-- Witness for C10: the Up-only group's Down side. -/
theorem c10_empty_side_stats_witness :
    sideRecords gUpOnly "Down" = [] ∧
    (sideQty gUpOnly "Down" = 0 ∧ sideCost gUpOnly "Down" = 0 ∧
      sideAvgPrice gUpOnly "Down" = 0 ∧
      renderOpt (priceMin gUpOnly "Down") = .nan ∧
      renderOpt (priceMax gUpOnly "Down") = .nan) := by
  have h : sideRecords gUpOnly "Down" = [] := by
    simp [sideRecords, gUpOnly, mkRec, List.filter_cons]
  exact ⟨h, c10_empty_side_stats gUpOnly "Down" h⟩

lemma sorted_rows60 : List.Sorted keyLE rows60 := by
  rw [rows60, List.Sorted, List.pairwise_map]
  refine (List.pairwise_lt_range 60).imp ?_
  intro i j hij
  refine Or.inr ⟨rfl, ?_⟩
  show ((i : ℚ)) ≤ ((j : ℚ))
  exact_mod_cast le_of_lt hij

lemma groupOf_rows60 : groupOf rows60 "a" = rows60 := by
  apply List.filter_eq_self.mpr
  intro r hr
  rcases List.mem_map.mp hr with ⟨i, _, rfl⟩
  rfl

lemma length_rows60 : rows60.length = 60 := by
  simp [rows60]

/-- C4: for every group of the sorted table, the head excerpt is its
first 10 records in sorted order; the tail excerpt and gap marker exist
iff the group has more than 20 records, and then the marker counts
`count - 20` omitted records while the tail shows the last 10. -/
theorem c4_excerpts (l : List TradeRecord) (s : String) :
    List.Sorted keyLE (groupOf (sortTrades l) s) ∧
    headExcerpt (groupOf (sortTrades l) s) = (groupOf (sortTrades l) s).take 10 ∧
    ((tailGap (groupOf (sortTrades l) s)).isSome ↔
      20 < (groupOf (sortTrades l) s).length) ∧
    (20 < (groupOf (sortTrades l) s).length →
      tailGap (groupOf (sortTrades l) s) =
        some ((groupOf (sortTrades l) s).length - 20,
          (groupOf (sortTrades l) s).drop ((groupOf (sortTrades l) s).length - 10))) := by
  refine ⟨(List.sorted_insertionSort keyLE l).filter _, rfl, ?_, ?_⟩
  · constructor
    · intro h
      by_contra hn
      rw [tailGap, if_neg hn] at h
      simp at h
    · intro h
      rw [tailGap, if_pos h]
      rfl
  · intro h
    rw [tailGap, if_pos h]

/-- Witness for C4 on a 60-trade group (Scenario C): tail excerpt
present, gap marker counting 40 omitted records. -/
theorem c4_excerpts_witness :
    20 < (groupOf (sortTrades rows60) "a").length ∧
    tailGap (groupOf (sortTrades rows60) "a") =
      some ((groupOf (sortTrades rows60) "a").length - 20,
        (groupOf (sortTrades rows60) "a").drop
          ((groupOf (sortTrades rows60) "a").length - 10)) ∧
    (groupOf (sortTrades rows60) "a").length - 20 = 40 := by
  have hlen : (groupOf (sortTrades rows60) "a").length = 60 := by
    have hsort : sortTrades rows60 = rows60 := sorted_rows60.insertionSort_eq
    rw [hsort, groupOf_rows60, length_rows60]
  have h : 20 < (groupOf (sortTrades rows60) "a").length := by
    rw [hlen]; decide
  exact ⟨h, (c4_excerpts rows60 "a").2.2.2 h, by rw [hlen]⟩

/-- C5: the three heuristic flags fire exactly at their strict
thresholds: cheap entry iff a present side's mean price over the first
20 sorted records is strictly below 0.35 (an absent side never
triggers), fast hedge iff the absolute gap between the first Up and
first Down timestamps is strictly below 60 seconds, sustained trading
iff the record count is strictly greater than 50. -/
theorem c5_pattern_flags (g : List TradeRecord) :
    (cheapEntry g = true ↔
      (∃ q, first20SideAvg g "Up" = some q ∧ q < 35/100) ∨
      (∃ q, first20SideAvg g "Down" = some q ∧ q < 35/100)) ∧
    (∀ u d, firstSideTime g "Up" = some u → firstSideTime g "Down" = some d →
      (fastHedge g = true ↔ |u - d| < 60)) ∧
    (sustainedTrading g = true ↔ 50 < g.length) := by
  refine ⟨?_, ?_, ?_⟩
  · rw [cheapEntry]
    cases hU : first20SideAvg g "Up" <;> cases hD : first20SideAvg g "Down" <;>
      simp [hU, hD]
  · intro u d hu hd
    rw [fastHedge, hedgeGapSeconds, hu, hd]
    simp
  · rw [sustainedTrading]
    simp

/-- Witness for C5 on the concrete hedged group (Scenario A shaped):
both first-trade times exist, the hedge gap is 30 < 60 seconds, and the
count threshold is evaluated. -/
theorem c5_pattern_flags_witness :
    firstSideTime gBoth "Up" = some 0 ∧ firstSideTime gBoth "Down" = some 30 ∧
    (fastHedge gBoth = true ↔ |(0 : ℚ) - 30| < 60) ∧
    (sustainedTrading gBoth = true ↔ 50 < gBoth.length) ∧
    (cheapEntry gBoth = true ↔
      (∃ q, first20SideAvg gBoth "Up" = some q ∧ q < 35/100) ∨
      (∃ q, first20SideAvg gBoth "Down" = some q ∧ q < 35/100)) := by
  have hu : firstSideTime gBoth "Up" = some 0 := by
    simp [firstSideTime, sideRecords, gBoth, mkRec, List.filter_cons, qmin?]
  have hd : firstSideTime gBoth "Down" = some 30 := by
    simp [firstSideTime, sideRecords, gBoth, mkRec, List.filter_cons, qmin?]
  exact ⟨hu, hd, (c5_pattern_flags gBoth).2.1 0 30 hu hd,
    (c5_pattern_flags gBoth).2.2, (c5_pattern_flags gBoth).1⟩

/-- C3: when the total Down quantity is 0, the up/down ratio line
renders an infinite or undefined marker (numpy float division emits a
warning and yields `inf`/`nan`; it raises no arithmetic error), never a
finite number. -/
theorem c3_ratio_no_crash (l : List TradeRecord) (h : sideQty l "Down" = 0) :
    (upDownRatio l = .inf ∨ upDownRatio l = .nan ∨ upDownRatio l = .negInf) ∧
    (∀ q, upDownRatio l ≠ .finite q) := by
  have hval : upDownRatio l =
      if 0 < sideQty l "Up" then .inf
      else if sideQty l "Up" < 0 then .negInf else .nan := by
    rw [upDownRatio]
    simp [h]
  rw [hval]
  constructor
  · split_ifs
    · exact Or.inl rfl
    · exact Or.inr (Or.inr rfl)
    · exact Or.inr (Or.inl rfl)
  · intro q
    split_ifs <;> simp

/-- Witness for C3: a dataset with Up trades only — the ratio renders as
`inf`/`nan`, not as a finite number. -/
theorem c3_ratio_no_crash_witness :
    sideQty gUpOnly "Down" = 0 ∧
    ((upDownRatio gUpOnly = .inf ∨ upDownRatio gUpOnly = .nan ∨
        upDownRatio gUpOnly = .negInf) ∧
      (∀ q, upDownRatio gUpOnly ≠ .finite q)) := by
  have h : sideQty gUpOnly "Down" = 0 := by
    simp [sideQty, sideRecords, gUpOnly, mkRec, List.filter_cons]
  exact ⟨h, c3_ratio_no_crash gUpOnly h⟩

lemma parseRows_none (rows : List RawRow) (r : RawRow) (hr : r ∈ rows)
    (hbad : r.timeVal = none) : parseRows rows = none := by
  induction rows with
  | nil => cases hr
  | cons x xs ih =>
    rcases List.mem_cons.mp hr with rfl | hm
    · simp [parseRows, parseRow, hbad]
    · cases hx : parseRow x
      · simp [parseRows, hx]
      · simp [parseRows, hx, ih hm]

/-- C8: load failures are atomic — a missing/unreadable file or an
unparseable timestamp aborts the program during the load phase, before
the banner or any report text is produced, so the output is empty. -/
theorem c8_load_atomic (rows : List RawRow) (r : RawRow) (hr : r ∈ rows)
    (hbad : r.timeVal = none) :
    run (.table rows) = none ∧ run .missing = none := by
  refine ⟨?_, rfl⟩
  simp [run, load, parseRows_none rows r hr hbad]

/-- A raw row whose timestamp cell does not parse. -/
def badRow : RawRow :=
  { slug := "a", title := "T", timeVal := none, side := "Up",
    qty := 1, price := 1, cost := 1 }

/-- Witness for C8: a one-row table with an unparseable timestamp
produces no output at all, and neither does a missing file. -/
theorem c8_load_atomic_witness :
    badRow ∈ [badRow] ∧ badRow.timeVal = none ∧
    (run (.table [badRow]) = none ∧ run .missing = none) :=
  ⟨List.mem_singleton_self badRow, rfl,
    c8_load_atomic [badRow] badRow (List.mem_singleton_self badRow) rfl⟩

lemma filter_map_sum (w : TradeRecord → ℚ) (p : TradeRecord → Bool)
    (l : List TradeRecord) :
    ((l.filter p).map w).sum = (l.map (fun r => if p r then w r else 0)).sum := by
  induction l with
  | nil => rfl
  | cons r t ih =>
    cases h : p r <;> simp [List.filter_cons, h, ih]

lemma sum_map_fun_add (f g : String → ℚ) (ks : List String) :
    (ks.map (fun s => f s + g s)).sum = (ks.map f).sum + (ks.map g).sum := by
  induction ks with
  | nil => simp
  | cons k t ih => simp [ih]; ring

lemma sum_map_ite_single (w : TradeRecord → ℚ) (r : TradeRecord)
    (ks : List String) (hnd : ks.Nodup) (hm : r.slug ∈ ks) :
    (ks.map (fun s => if r.slug == s then w r else 0)).sum = w r := by
  induction ks with
  | nil => cases hm
  | cons k t ih =>
    rw [List.map_cons, List.sum_cons]
    rcases List.mem_cons.mp hm with heq | hm'
    · subst heq
      have hnotin : r.slug ∉ t := (List.nodup_cons.mp hnd).1
      have hzero : (t.map (fun s => if r.slug == s then w r else 0)).sum = 0 := by
        apply List.sum_eq_zero
        intro x hx
        rcases List.mem_map.mp hx with ⟨s, hs, rfl⟩
        have hne : (r.slug == s) = false :=
          beq_eq_false_iff_ne.mpr (fun e => hnotin (e ▸ hs))
        simp [hne]
      have h1 : (if r.slug == r.slug then w r else 0) = w r := by simp
      rw [h1, hzero, add_zero]
    · have hne : (r.slug == k) = false := by
        apply beq_eq_false_iff_ne.mpr
        rintro rfl
        exact (List.nodup_cons.mp hnd).1 hm'
      have h0 : (if r.slug == k then w r else 0) = 0 := by simp [hne]
      rw [h0, zero_add]
      exact ih (List.nodup_cons.mp hnd).2 hm'

lemma groups_weight_sum (w : TradeRecord → ℚ) (l : List TradeRecord) :
    ∀ ks : List String, ks.Nodup → (∀ r ∈ l, r.slug ∈ ks) →
      (ks.map (fun s => ((l.filter (fun x => x.slug == s)).map w).sum)).sum
        = (l.map w).sum := by
  induction l with
  | nil =>
    intro ks _ _
    simp
  | cons r t ih =>
    intro ks hnd hmem
    have hr := hmem r (List.mem_cons_self r t)
    have ht : ∀ x ∈ t, x.slug ∈ ks := fun x hx => hmem x (List.mem_cons_of_mem r hx)
    have hpt : ∀ s ∈ ks, (((r :: t).filter (fun x => x.slug == s)).map w).sum
        = (if r.slug == s then w r else 0)
          + ((t.filter (fun x => x.slug == s)).map w).sum := by
      intro s _
      cases h : (r.slug == s) <;> simp [List.filter_cons, h]
    calc (ks.map (fun s => (((r :: t).filter (fun x => x.slug == s)).map w).sum)).sum
        = (ks.map (fun s => (if r.slug == s then w r else 0)
            + ((t.filter (fun x => x.slug == s)).map w).sum)).sum := by
          rw [List.map_congr_left hpt]
      _ = (ks.map (fun s => if r.slug == s then w r else 0)).sum
            + (ks.map (fun s => ((t.filter (fun x => x.slug == s)).map w).sum)).sum :=
          sum_map_fun_add _ _ ks
      _ = w r + (t.map w).sum := by
          rw [sum_map_ite_single w r ks hnd hr, ih ks hnd ht]
      _ = ((r :: t).map w).sum := by simp

/-- C7: grouping partitions the table — each group's count is the
number of records bearing its slug, and the per-side quantity totals
summed over all groups equal the global per-side totals. -/
theorem c7_partition (l : List TradeRecord) :
    (∀ s ∈ groupKeys l, (groupOf l s).length = l.countP (fun r => r.slug == s)) ∧
    ((groupKeys l).map (fun s => sideQty (groupOf l s) "Up")).sum = sideQty l "Up" ∧
    ((groupKeys l).map (fun s => sideQty (groupOf l s) "Down")).sum
      = sideQty l "Down" := by
  have hside : ∀ side : String,
      ((groupKeys l).map (fun s => sideQty (groupOf l s) side)).sum
        = sideQty l side := by
    intro side
    have h1 : ∀ s ∈ groupKeys l, sideQty (groupOf l s) side
        = ((l.filter (fun x => x.slug == s)).map
            (fun r => if r.side == side then r.qty else 0)).sum := by
      intro s _
      rw [sideQty, sideRecords, groupOf]
      exact filter_map_sum (·.qty) (fun r => r.side == side) _
    have h2 : sideQty l side
        = (l.map (fun r => if r.side == side then r.qty else 0)).sum := by
      rw [sideQty, sideRecords]
      exact filter_map_sum (·.qty) (fun r => r.side == side) l
    rw [h2, List.map_congr_left h1]
    exact groups_weight_sum _ l (groupKeys l) (List.nodup_dedup _)
      (fun r hr => List.mem_dedup.mpr (List.mem_map_of_mem _ hr))
  refine ⟨?_, hside "Up", hside "Down"⟩
  intro s _
  rw [groupOf]
  exact (List.countP_eq_length_filter _ _).symm

/-- A two-slug table: the hedged group under slug `a` plus one Down
trade under slug `b`. -/
def c7Table : List TradeRecord := gBoth ++ [mkRec "b" 5 "Down" 4 (1/2) 2]

/-- Witness for C7 on a concrete two-group table. -/
theorem c7_partition_witness :
    "a" ∈ groupKeys c7Table ∧
    (groupOf c7Table "a").length = c7Table.countP (fun r => r.slug == "a") ∧
    ((groupKeys c7Table).map (fun s => sideQty (groupOf c7Table s) "Up")).sum
      = sideQty c7Table "Up" ∧
    ((groupKeys c7Table).map (fun s => sideQty (groupOf c7Table s) "Down")).sum
      = sideQty c7Table "Down" := by
  have hm : "a" ∈ groupKeys c7Table := by
    simp [groupKeys, c7Table, gBoth, mkRec, List.mem_dedup]
  exact ⟨hm, (c7_partition c7Table).1 "a" hm, (c7_partition c7Table).2.1,
    (c7_partition c7Table).2.2⟩

/-- The raw table for the empty-side scenario: group `a` has only Up
trades; group `b` has both sides. -/
def c1Rows : List RawRow :=
  [{ slug := "a", title := "T", timeVal := some 0, side := "Up",
     qty := 1, price := 1, cost := 1 },
   { slug := "b", title := "T", timeVal := some 0, side := "Up",
     qty := 1, price := 1, cost := 1 },
   { slug := "b", title := "T", timeVal := some 5, side := "Down",
     qty := 1, price := 1, cost := 1 }]

/-- The parsed records of `c1Rows`. -/
def c1Recs : List TradeRecord :=
  [mkRec "a" 0 "Up" 1 1 1, mkRec "b" 0 "Up" 1 1 1, mkRec "b" 5 "Down" 1 1 1]

/-- C1 (behaviour of the code at the failing input): on a table whose
first group has no Down trades, the block for that group aborts with an
unhandled `ValueError` (from `strftime` on `NaT`), the report for the
following group `b` is never produced, and the global summary is never
reached — contrary to the claim that the statistics are reported as
absent and the remaining groups still printed. -/
theorem c1_code_crashes :
    run (.table c1Rows) =
      some { blocks := [("a", false)], groupPhaseOk := false,
             globalOk := false } := by
  have hab : ("a" : String) < "b" := String.lt_iff_toList_lt.mpr (by decide)
  have hparse : parseRows c1Rows = some c1Recs := rfl
  have hsorted : List.Sorted keyLE c1Recs := by
    refine List.Pairwise.cons ?_ (List.Pairwise.cons ?_ (List.pairwise_singleton _ _))
    · intro b hb
      rcases List.mem_cons.mp hb with rfl | hb
      · exact Or.inl hab
      · rcases List.mem_singleton.mp hb with rfl
        exact Or.inl hab
    · intro b hb
      rcases List.mem_singleton.mp hb with rfl
      refine Or.inr ⟨rfl, ?_⟩
      show (0 : ℚ) ≤ 5
      norm_num
  have hsort : sortTrades c1Recs = c1Recs := hsorted.insertionSort_eq
  have hload : load (.table c1Rows) = some c1Recs := by
    simp [load, hparse, hsort]
  have hk : groupKeys c1Recs = ["a", "b"] := by
    simp [groupKeys, c1Recs, mkRec, List.dedup_cons_of_mem,
      List.dedup_cons_of_not_mem]
  have hga : groupOf c1Recs "a" = [mkRec "a" 0 "Up" 1 1 1] := by
    simp [groupOf, c1Recs, mkRec, List.filter_cons]
  have hgb : groupOf c1Recs "b" =
      [mkRec "b" 0 "Up" 1 1 1, mkRec "b" 5 "Down" 1 1 1] := by
    simp [groupOf, c1Recs, mkRec, List.filter_cons]
  have hok : groupBlockOk [mkRec "a" 0 "Up" 1 1 1] = false := by
    simp [groupBlockOk, firstSideTime, sideRecords, mkRec, List.filter_cons, qmin?]
  have hmap : (groupKeys c1Recs).map (fun s => (s, groupOf c1Recs s)) =
      [("a", [mkRec "a" 0 "Up" 1 1 1]),
       ("b", [mkRec "b" 0 "Up" 1 1 1, mkRec "b" 5 "Down" 1 1 1])] := by
    rw [hk, List.map_cons, List.map_cons, List.map_nil, hga, hgb]
  have hloop : groupLoop
      [("a", [mkRec "a" 0 "Up" 1 1 1]),
       ("b", [mkRec "b" 0 "Up" 1 1 1, mkRec "b" 5 "Down" 1 1 1])] =
      [("a", false)] := by
    rw [groupLoop, hok]
    rfl
  have hout : runLoaded c1Recs =
      { blocks := [("a", false)], groupPhaseOk := false, globalOk := false } := by
    rw [runLoaded, hmap, hloop]
    rfl
  rw [run, hload]
  show some (runLoaded c1Recs) = _
  rw [hout]
